import Mathlib

/-!
# rainsd: inbox dispatch and switchboard

A shallow embedding of `rainsd/inbox.go` and `rainsd/switchboard.go`.

The package-level variables (`prioChannel`, `normalChannel`, `notificationChannel`,
`activeTokens`, `capabilities`, `peerToCapability`, `connCache`) become the fields of
`State`, and every function that touches them becomes a function `State → State`.
A buffered channel is the list of the items sent on it and not yet received, oldest
first: `ch <- x` appends, a receive takes the head.  What the network does is recorded
in two logs: `dials` (every `tls.DialWithDialer` call) and `writes` (every `conn.Write`).
Collaborators that live outside these two files (parser, framer, signature check,
notification encoder, configuration values) are the fields of `Env`.
-/

namespace Rains

/-! ## Data model -/

/-- The `rainslib.Token` type, `[16]byte`; only compared for equality and used as a map
key, so it is read as the number its sixteen bytes spell.  The zero value is `0`. -/
abbrev Token := Nat

/-- A byte slice `[]byte`. -/
abbrev Bytes := List Nat

/-- The `Capability` type, a string. -/
abbrev Capability := String

/-- The `rainslib.ConnInfo` struct: a transport type and an address. -/
structure ConnInfo where
  Type_ : Nat
  TCPAddr : String
deriving DecidableEq

/-- The `AddressPair` struct, key of the connection cache. -/
structure AddressPair where
  local_ : ConnInfo
  remote : ConnInfo
deriving DecidableEq

/-- A `net.Conn` handle, named by the number it was given when it was opened. -/
structure Conn where
  id : Nat
deriving DecidableEq

/-- The `rainslib.QuerySection` struct: its own token, the rest of the query abstract. -/
structure QuerySection where
  Token : Token
  body : Nat
deriving DecidableEq

/-- The dynamic type of a `rainslib.MessageSection`, as the type switch in `deliver`
sees it.  Payloads that `deliver` never inspects are abstract numbers. -/
inductive MessageSection where
  | AssertionSection (a : Nat)
  | ShardSection (s : Nat)
  | ZoneSection (z : Nat)
  | QuerySection (q : QuerySection)
  | NotificationSection (n : Nat)
  | unsupported (x : Nat)
deriving DecidableEq

/-- The `rainslib.RainsMessage` struct. -/
structure RainsMessage where
  Token : Token
  Content : List MessageSection
  Signatures : List Nat
  Capabilities : String
deriving DecidableEq

/-- The `msgSectionSender` struct, the unit of work placed on a channel. -/
structure msgSectionSender where
  Sender : ConnInfo
  Msg : MessageSection
  Token : Token
deriving DecidableEq

/-- The two `rainslib.NotificationType` values the inbox sends. -/
inductive NotificationType where
  | MsgTooLarge
  | BadMessage
deriving DecidableEq

/-- What the `interface{}` stored in `peerToCapability` holds: a capability list taken
from the capability cache, or a single capability literal. -/
inductive CapValue where
  | list (cs : List Capability)
  | single (c : Capability)
deriving DecidableEq

/-- What the `interface{}` returned by `connCache.Get` holds: a `net.Conn`, or a value
on which the assertion `conn.(net.Conn)` fails. -/
inductive CacheValue where
  | netConn (c : Conn)
  | notConn (x : Nat)
deriving DecidableEq

/-! ## Caches -/

/-- Modelled from the spec: the bounded store behind `cache` and `connectionCache`
(`LRUCache`, `createConnectionCache`), whose implementation is not among the sources.
Spec 4.1: bounded capacity; on overflow the least recently used entry is evicted; any
`get` or `add` refreshes recency.  `entries` is ordered most recently used first. -/
structure LRUCache (κ ν : Type) where
  capacity : Nat
  entries : List (κ × ν)
deriving DecidableEq

namespace LRUCache

variable {κ ν : Type} [DecidableEq κ]

/-- Modelled from the spec: the entries of the cache under keys other than `k`. -/
def without (c : LRUCache κ ν) (k : κ) : List (κ × ν) :=
  c.entries.filter (fun e => decide (e.1 ≠ k))

/-- Modelled from the spec: the value stored under `k`, recency untouched. -/
def lookup (c : LRUCache κ ν) (k : κ) : Option ν :=
  (c.entries.find? (fun e => decide (e.1 = k))).map Prod.snd

/-- Modelled from the spec: `Get(key) -> (value, found)`; a hit moves the entry to the
most recently used place, a miss leaves the cache as it is. -/
def Get (c : LRUCache κ ν) (k : κ) : Option ν × LRUCache κ ν :=
  match c.lookup k with
  | some v => (some v, { c with entries := (k, v) :: c.without k })
  | none => (none, c)

/-- Modelled from the spec: `Add(key, value)`; the entry becomes the most recently used
one, replacing any older entry under the same key, and entries beyond the capacity are
evicted from the least recently used end. -/
def Add (c : LRUCache κ ν) (k : κ) (v : ν) : LRUCache κ ν :=
  { c with entries := ((k, v) :: c.without k).take c.capacity }

end LRUCache

/-! ## State and environment -/

/-- The package-level variables of `rainsd` together with the two network logs. -/
structure State where
  prioChannel : List msgSectionSender
  normalChannel : List msgSectionSender
  notificationChannel : List msgSectionSender
  /-- Keys of `activeTokens`, a `map[[16]byte]bool`. -/
  activeTokens : List Token
  capabilities : LRUCache String (List Capability)
  peerToCapability : LRUCache ConnInfo CapValue
  connCache : LRUCache AddressPair CacheValue
  /-- Number the next opened connection gets. -/
  nextConn : Nat
  /-- Receivers of the `tls.DialWithDialer` calls made so far, oldest first. -/
  dials : List ConnInfo
  /-- Connection and frame of the `conn.Write` calls made so far, oldest first. -/
  writes : List (Conn × Bytes)
deriving DecidableEq

/-- Collaborators and constants declared outside `inbox.go` and `switchboard.go`. -/
structure Env where
  /-- The field `MaxMsgByteLength` of `Config`. -/
  MaxMsgByteLength : Nat
  serverConnInfo : ConnInfo
  /-- The constant `rainslib.TCP`. -/
  TCP : Nat
  /-- The capability literal `TLSOverTCP`. -/
  TLSOverTCP : Capability
  /-- The capability literal `NoCapability`. -/
  NoCapability : Capability
  /-- The call `msgParser.Token(message)`: token and whether an error came with it. -/
  parseToken : Bytes → Token × Bool
  /-- The call `msgParser.ParseByteSlice(message)`: message and error, if any. -/
  ParseByteSlice : Bytes → RainsMessage × Option String
  verifyMessageSignature : List Nat → Bool
  CreateNotificationMsg : Token → NotificationType → String → Except String Bytes
  /-- The call `framer.Frame(message)`. -/
  Frame : Bytes → Except String Bytes
  /-- Whether `tls.DialWithDialer` to a receiver succeeds, given the dials made before. -/
  dialOk : ConnInfo → List ConnInfo → Bool

/-! ## switchboard.go -/

/-- The function `createConnection`: dial a TCP receiver, fail on any other type. -/
def createConnection (env : Env) (receiver : ConnInfo) (st : State) :
    Except String Conn × State :=
  if receiver.Type_ = env.TCP then
    if env.dialOk receiver st.dials then
      (.ok ⟨st.nextConn⟩,
        { st with nextConn := st.nextConn + 1, dials := st.dials ++ [receiver] })
    else
      (.error "dial failed", { st with dials := st.dials ++ [receiver] })
  else
    (.error "No matching type found for Connection info", st)

/-- The function `sendTo`. -/
def sendTo (env : Env) (message : Bytes) (receiver : ConnInfo) (st : State) : State :=
  let addrPair : AddressPair := { local_ := env.serverConnInfo, remote := receiver }
  match st.connCache.Get addrPair with
  | (some cached, cache1) =>
    let st := { st with connCache := cache1 }
    match cached with
    | .netConn conn =>
      match env.Frame message with
      | .error _ => st
      | .ok frame =>
        { st with writes := st.writes ++ [(conn, frame)],
                  connCache := st.connCache.Add addrPair (.netConn conn) }
    | .notConn _ => st
  | (none, cache1) =>
    let st := { st with connCache := cache1 }
    match createConnection env receiver st with
    | (.error _, st) => st
    | (.ok conn, st) =>
      match env.Frame message with
      | .error _ => st
      | .ok frame =>
        { st with writes := st.writes ++ [(conn, frame)],
                  connCache := st.connCache.Add addrPair (.netConn conn) }

/-! ## inbox.go -/

/-- The function `sendNotificationMsg`. -/
def sendNotificationMsg (env : Env) (token : Token) (sender : ConnInfo)
    (notificationType : NotificationType) (st : State) : State :=
  match env.CreateNotificationMsg token notificationType "" with
  | .error _ => st
  | .ok msg => sendTo env msg sender st

/-- The function `addMsgSectionToQueue`. -/
def addMsgSectionToQueue (msgSection : MessageSection) (tok : Token) (sender : ConnInfo)
    (st : State) : State :=
  if tok ∈ st.activeTokens then
    { st with prioChannel :=
        st.prioChannel ++ [{ Sender := sender, Msg := msgSection, Token := tok }] }
  else
    { st with normalChannel :=
        st.normalChannel ++ [{ Sender := sender, Msg := msgSection, Token := tok }] }

/-- The function `addQueryToQueue`. -/
def addQueryToQueue (env : Env) (section_ : QuerySection) (msg : RainsMessage)
    (sender : ConnInfo) (st : State) : State :=
  if msg.Token = section_.Token then
    { st with normalChannel := st.normalChannel ++
        [{ Sender := sender, Msg := .QuerySection section_, Token := msg.Token }] }
  else
    sendNotificationMsg env section_.Token sender .BadMessage
      (sendNotificationMsg env msg.Token sender .BadMessage st)

/-- The function `addNotificationToQueue`. -/
def addNotificationToQueue (msg : MessageSection) (tok : Token) (sender : ConnInfo)
    (st : State) : State :=
  if tok ∈ st.activeTokens then
    { st with activeTokens := st.activeTokens.filter (fun t => decide (t ≠ tok)),
              notificationChannel :=
                st.notificationChannel ++ [{ Sender := sender, Msg := msg, Token := tok }] }
  else
    st

/-- The capability block of `deliver` (the `if msg.Capabilities != ""` statement). -/
def negotiateCapabilities (env : Env) (msg : RainsMessage) (sender : ConnInfo)
    (st : State) : State :=
  if msg.Capabilities ≠ "" then
    match st.capabilities.Get msg.Capabilities with
    | (some caps, cache1) =>
      { st with capabilities := cache1,
                peerToCapability := st.peerToCapability.Add sender (.list caps) }
    | (none, cache1) =>
      let st := { st with capabilities := cache1 }
      if msg.Capabilities = env.TLSOverTCP then
        { st with peerToCapability := st.peerToCapability.Add sender (.single env.TLSOverTCP) }
      else if msg.Capabilities = env.NoCapability then
        { st with peerToCapability := st.peerToCapability.Add sender (.single env.NoCapability) }
      else
        st
  else
    st

/-- The body of the loop `for _, m := range msg.Content` of `deliver`. -/
def deliverSection (env : Env) (msg : RainsMessage) (sender : ConnInfo) (st : State)
    (m : MessageSection) : State :=
  match m with
  | .AssertionSection _ | .ShardSection _ | .ZoneSection _ =>
    addMsgSectionToQueue m msg.Token sender st
  | .QuerySection q => addQueryToQueue env q msg sender st
  | .NotificationSection _ => addNotificationToQueue m msg.Token sender st
  | .unsupported _ => st

/-- The loop `for _, m := range msg.Content` of `deliver`, run over `sections`. -/
def deliverSections (env : Env) (msg : RainsMessage) (sender : ConnInfo)
    (sections : List MessageSection) (st : State) : State :=
  sections.foldl (deliverSection env msg sender) st

/-- The function `deliver`. -/
def deliver (env : Env) (message : Bytes) (sender : ConnInfo) (st : State) : State :=
  if message.length > env.MaxMsgByteLength then
    let token := (env.parseToken message).1
    sendNotificationMsg env token sender .MsgTooLarge st
  else
    match env.ParseByteSlice message with
    | (msg, some _) => sendNotificationMsg env msg.Token sender .BadMessage st
    | (msg, none) =>
      let st := negotiateCapabilities env msg sender st
      if !env.verifyMessageSignature msg.Signatures then
        st
      else
        deliverSections env msg sender msg.Content st

/-- A case of the `select` statement of `workBoth`. -/
inductive SelectCase where
  | recvPrio
  | recvNormal
deriving DecidableEq

/-- What one pass through the loop of `workBoth` did. -/
inductive WorkerAction where
  | verifyPrio (msg : msgSectionSender)
  | verifyNormal (msg : msgSectionSender)
  | sleep
deriving DecidableEq

/-- The cases of the `select` in `workBoth` that can proceed, in source order. -/
def readyCases (st : State) : List SelectCase :=
  (if st.prioChannel ≠ [] then [SelectCase.recvPrio] else []) ++
  (if st.normalChannel ≠ [] then [SelectCase.recvNormal] else [])

/-- One pass through the loop of `workBoth`.  A Go `select` with a `default` runs the
default when no case can proceed, and otherwise runs one of the cases that can proceed,
picked by a uniform pseudo-random choice; `pick` is that choice. -/
def workBothStep (pick : Nat) (st : State) : WorkerAction × State :=
  match (readyCases st).get? (pick % (readyCases st).length) with
  | some .recvPrio =>
    match st.prioChannel with
    | msg :: rest => (.verifyPrio msg, { st with prioChannel := rest })
    | [] => (.sleep, st)
  | some .recvNormal =>
    match st.normalChannel with
    | msg :: rest => (.verifyNormal msg, { st with normalChannel := rest })
    | [] => (.sleep, st)
  | none => (.sleep, st)

/-- Whether a section takes the first case of the type switch in `deliver`
(`*AssertionSection`, `*ShardSection`, `*ZoneSection`). -/
def MessageSection.isAssertionShardZone : MessageSection → Bool
  | .AssertionSection _ => true
  | .ShardSection _ => true
  | .ZoneSection _ => true
  | _ => false

/-- Whether a section takes the `*NotificationSection` case of the type switch. -/
def MessageSection.isNotification : MessageSection → Bool
  | .NotificationSection _ => true
  | _ => false

/-! ## switchboard.go: the accept loop -/

/-- The zero value `rainslib.ConnInfo{}`. -/
def zeroConnInfo : ConnInfo := { Type_ := 0, TCPAddr := "" }

/-- The function `parseRemoteAddr`.  `ResolveTCPAddr` is `net.ResolveTCPAddr`, which
lies outside the repository.  When it fails the code logs a warning and goes on to
dereference the nil `tcpAddr`, which panics: the result is `none`. -/
def parseRemoteAddr (env : Env) (ResolveTCPAddr : String → String → Except String String)
    (netAddrType s : String) : Option ConnInfo :=
  if netAddrType = "tcp" ∨ netAddrType = "tcp4" ∨ netAddrType = "tcp6" then
    match ResolveTCPAddr netAddrType s with
    | .ok tcpAddr => some { Type_ := env.TCP, TCPAddr := tcpAddr }
    | .error _ => none
  else
    some zeroConnInfo

/-- The function `handleConnection`.  `frames` holds the values of `framer.Data()` for
the successive calls of `framer.Deframe()` that return true; the loop ends at the first
call that returns false.  The connection itself is only read from and given a deadline. -/
def handleConnection (env : Env) (_conn : Conn) (client : ConnInfo) (frames : List Bytes)
    (st : State) : State :=
  frames.foldl (fun st data => deliver env data client st) st

/-- What `conn.RemoteAddr().Network()` returns for a connection accepted in `Listen`:
the listener is opened with `tls.Listen("tcp", ...)`, and the remote address of a
connection accepted from a TCP listener reports the network `tcp`. -/
def acceptedNetwork : String := "tcp"

/-- One pass through the accept loop of `Listen`.  `accepted` is what `listener.Accept()`
returned: an error, or a connection, given by the string of its `RemoteAddr()`; its
network is `acceptedNetwork`.  On an error the loop continues with the state as it is.
Otherwise the result is the state after `connCache.Add` together with the two arguments
of the `handleConnection` goroutine the pass starts; `none` stands for the panic of
`parseRemoteAddr`. -/
def ListenStep (env : Env) (ResolveTCPAddr : String → String → Except String String)
    (accepted : Except String String) (st : State) :
    Option (State × Option (Conn × ConnInfo)) :=
  match accepted with
  | .error _ => some (st, none)
  | .ok addr =>
    let conn : Conn := ⟨st.nextConn⟩
    let st := { st with nextConn := st.nextConn + 1 }
    match parseRemoteAddr env ResolveTCPAddr acceptedNetwork addr with
    | none => none
    | some connInfo =>
      let addrPair : AddressPair := { local_ := env.serverConnInfo, remote := connInfo }
      some ({ st with connCache := st.connCache.Add addrPair (.netConn conn) },
            some (conn, connInfo))

/-! ## Sample inputs -/

/-- A sample address resolver: every address resolves to itself. -/
def sampleResolveTCPAddr : String → String → Except String String :=
  fun _ s => .ok s

/-- A sample server identity. -/
def sampleServer : ConnInfo := { Type_ := 1, TCPAddr := "192.0.2.1:5022" }

/-- A sample TCP peer. -/
def samplePeer : ConnInfo := { Type_ := 1, TCPAddr := "198.51.100.7:40000" }

/-- A sample environment: every buffer parses to `msg` with error `err`, a signature
list verifies when it holds no `0`, a notification encodes to its token followed by `400`
or `413`, framing appends a newline and every dial succeeds. -/
def sampleEnv (msg : RainsMessage) (err : Option String) : Env where
  MaxMsgByteLength := 4
  serverConnInfo := sampleServer
  TCP := 1
  TLSOverTCP := "urn:x-rains:tlssrv"
  NoCapability := "urn:x-rains:nocapability"
  parseToken := fun b => (b.headD 0, false)
  ParseByteSlice := fun _ => (msg, err)
  verifyMessageSignature := fun sigs => sigs.all (fun s => decide (s ≠ 0))
  CreateNotificationMsg := fun t ty _ =>
    .ok [t, match ty with | .MsgTooLarge => 413 | .BadMessage => 400]
  Frame := fun b => .ok (b ++ [10])
  dialOk := fun _ _ => true

/-- A sample state: empty channels, the given active tokens, the two capability hashes
that `initInbox` installs, no connection yet. -/
def sampleState (active : List Token) : State where
  prioChannel := []
  normalChannel := []
  notificationChannel := []
  activeTokens := active
  capabilities :=
    { capacity := 10,
      entries :=
        [("76be8b528d0075f7aae98d6fa57a6d3c83ae480a8469e668d7b0af968995ac71",
            ["urn:x-rains:nocapability"]),
         ("e5365a09be554ae55b855f15264dbc837b04f5831daeb321359e18cdabab5745",
            ["urn:x-rains:tlssrv"])] }
  peerToCapability := { capacity := 10, entries := [] }
  connCache := { capacity := 10, entries := [] }
  nextConn := 0
  dials := []
  writes := []

/-! ## Relations between states used in the statements -/

/-- The parts of the state that belong to the inbox queues. -/
def sameQueues (a b : State) : Prop :=
  a.prioChannel = b.prioChannel ∧ a.normalChannel = b.normalChannel ∧
  a.notificationChannel = b.notificationChannel ∧ a.activeTokens = b.activeTokens

/-- The two capability caches. -/
def sameCapabilityCaches (a b : State) : Prop :=
  a.capabilities = b.capabilities ∧ a.peerToCapability = b.peerToCapability

/-- The connection cache and the network logs. -/
def sameNetwork (a b : State) : Prop :=
  a.connCache = b.connCache ∧ a.nextConn = b.nextConn ∧ a.dials = b.dials ∧
  a.writes = b.writes

/-- The receiver can be written to: it is a TCP peer, dialling it succeeds, and the
connection cache holds no entry for it that is not a connection. -/
def canReach (env : Env) (receiver : ConnInfo) (st : State) : Prop :=
  receiver.Type_ = env.TCP ∧ (∀ ds, env.dialOk receiver ds = true) ∧
  ∀ x, st.connCache.lookup { local_ := env.serverConnInfo, remote := receiver } ≠
    some (.notConn x)

/-! ## Sample messages -/

/-- A message with envelope token `7`, valid signatures and sections Shard, Assertion. -/
def sampleShardAssertionMsg : RainsMessage :=
  { Token := 7, Content := [.ShardSection 1, .AssertionSection 2], Signatures := [1],
    Capabilities := "" }

/-- A message with envelope token `7`, valid signatures and a Shard section behind a
Notification section. -/
def sampleNotificationShardMsg : RainsMessage :=
  { Token := 7, Content := [.NotificationSection 3, .ShardSection 5], Signatures := [1],
    Capabilities := "" }

/-- A message with envelope token `7`, valid signatures and one Notification section. -/
def sampleNotificationMsg : RainsMessage :=
  { Token := 7, Content := [.NotificationSection 3], Signatures := [1], Capabilities := "" }

/-- A message with envelope token `7`, valid signatures and one Query section whose own
token is `9`. -/
def sampleQueryMismatchMsg : RainsMessage :=
  { Token := 7, Content := [.QuerySection { Token := 9, body := 0 }], Signatures := [1],
    Capabilities := "" }

/-- A message with envelope token `7` whose signature list does not verify, holding an
Assertion, a Notification and a Query with a token of its own. -/
def sampleBadSignatureMsg : RainsMessage :=
  { Token := 7,
    Content := [.AssertionSection 1, .NotificationSection 2,
      .QuerySection { Token := 9, body := 0 }],
    Signatures := [1, 0], Capabilities := "" }

/-- The zero-value message, as a parser that recovered nothing returns it. -/
def sampleZeroMsg : RainsMessage :=
  { Token := 0, Content := [], Signatures := [], Capabilities := "" }

/-- A message with envelope token `7`, valid signatures and one Assertion section. -/
def sampleAssertionMsg : RainsMessage :=
  { Token := 7, Content := [.AssertionSection 1], Signatures := [1], Capabilities := "" }

/-- A message with envelope token `7`, valid signatures and the same Assertion section
behind a Notification section. -/
def sampleNotificationAssertionMsg : RainsMessage :=
  { Token := 7, Content := [.NotificationSection 3, .AssertionSection 1], Signatures := [1],
    Capabilities := "" }

/-- A message whose capability field is the hash of the `TLSOverTCP` capability set. -/
def sampleCapabilityHashMsg : RainsMessage :=
  { Token := 7, Content := [.AssertionSection 1], Signatures := [1],
    Capabilities := "e5365a09be554ae55b855f15264dbc837b04f5831daeb321359e18cdabab5745" }

/-- A message whose capability field is neither a cached hash nor a known literal. -/
def sampleUnknownCapabilityMsg : RainsMessage :=
  { Token := 7, Content := [.AssertionSection 1], Signatures := [1],
    Capabilities := "urn:x-rains:unknown" }

/-- An environment in which the buffer `[1]` parses to `sampleUnknownCapabilityMsg` and
every other buffer to the same message with an empty capability field. -/
def sampleTwoBufferEnv : Env :=
  { sampleEnv sampleUnknownCapabilityMsg none with
    ParseByteSlice := fun b =>
      if b = [1] then (sampleUnknownCapabilityMsg, none)
      else ({ sampleUnknownCapabilityMsg with Capabilities := "" }, none) }

/-! ## Frame lemmas: what the send path and the capability block leave alone -/

theorem createConnection_sameQueues (env : Env) (receiver : ConnInfo) (st : State) :
    sameQueues (createConnection env receiver st).2 st := by
  unfold createConnection sameQueues
  split_ifs <;> simp

theorem createConnection_sameCapabilityCaches (env : Env) (receiver : ConnInfo)
    (st : State) : sameCapabilityCaches (createConnection env receiver st).2 st := by
  unfold createConnection sameCapabilityCaches
  split_ifs <;> simp

theorem sendTo_sameQueues (env : Env) (message : Bytes) (receiver : ConnInfo) (st : State) :
    sameQueues (sendTo env message receiver st) st := by
  unfold sendTo
  dsimp only
  split
  · split
    · split <;> simp [sameQueues]
    · simp [sameQueues]
  · rename_i cache1 _
    have h := createConnection_sameQueues env receiver { st with connCache := cache1 }
    split <;> rename_i heq <;> rw [heq] at h
    · exact h
    · split
      · exact h
      · simpa [sameQueues] using h

theorem sendTo_sameCapabilityCaches (env : Env) (message : Bytes) (receiver : ConnInfo)
    (st : State) : sameCapabilityCaches (sendTo env message receiver st) st := by
  unfold sendTo
  dsimp only
  split
  · split
    · split <;> simp [sameCapabilityCaches]
    · simp [sameCapabilityCaches]
  · rename_i cache1 _
    have h := createConnection_sameCapabilityCaches env receiver { st with connCache := cache1 }
    split <;> rename_i heq <;> rw [heq] at h
    · exact h
    · split
      · exact h
      · simpa [sameCapabilityCaches] using h

theorem sameQueues_trans {a b c : State} (h1 : sameQueues a b) (h2 : sameQueues b c) :
    sameQueues a c :=
  ⟨h1.1.trans h2.1, h1.2.1.trans h2.2.1, h1.2.2.1.trans h2.2.2.1, h1.2.2.2.trans h2.2.2.2⟩

theorem sameCapabilityCaches_trans {a b c : State} (h1 : sameCapabilityCaches a b)
    (h2 : sameCapabilityCaches b c) : sameCapabilityCaches a c :=
  ⟨h1.1.trans h2.1, h1.2.trans h2.2⟩

theorem sendNotificationMsg_sameQueues (env : Env) (token : Token) (sender : ConnInfo)
    (ty : NotificationType) (st : State) :
    sameQueues (sendNotificationMsg env token sender ty st) st := by
  unfold sendNotificationMsg
  split
  · simp [sameQueues]
  · exact sendTo_sameQueues env _ sender st

theorem sendNotificationMsg_sameCapabilityCaches (env : Env) (token : Token)
    (sender : ConnInfo) (ty : NotificationType) (st : State) :
    sameCapabilityCaches (sendNotificationMsg env token sender ty st) st := by
  unfold sendNotificationMsg
  split
  · simp [sameCapabilityCaches]
  · exact sendTo_sameCapabilityCaches env _ sender st

theorem negotiateCapabilities_sameQueues (env : Env) (msg : RainsMessage) (sender : ConnInfo)
    (st : State) : sameQueues (negotiateCapabilities env msg sender st) st := by
  unfold negotiateCapabilities sameQueues
  split_ifs <;> (try split) <;> simp

theorem negotiateCapabilities_sameNetwork (env : Env) (msg : RainsMessage)
    (sender : ConnInfo) (st : State) :
    sameNetwork (negotiateCapabilities env msg sender st) st := by
  unfold negotiateCapabilities sameNetwork
  split_ifs <;> (try split) <;> simp

/-! ## Cache lemmas -/

theorem LRUCache.Get_fst {κ ν : Type} [DecidableEq κ] (c : LRUCache κ ν) (k : κ) :
    (c.Get k).1 = c.lookup k := by
  unfold LRUCache.Get
  split <;> rename_i h <;> simp [h]

theorem LRUCache.Get_snd_of_miss {κ ν : Type} [DecidableEq κ] (c : LRUCache κ ν) (k : κ)
    (h : c.lookup k = none) : (c.Get k).2 = c := by
  unfold LRUCache.Get
  simp [h]

theorem LRUCache.Get_snd_capacity {κ ν : Type} [DecidableEq κ] (c : LRUCache κ ν) (k : κ) :
    (c.Get k).2.capacity = c.capacity := by
  unfold LRUCache.Get
  split <;> rfl

theorem LRUCache.Add_capacity {κ ν : Type} [DecidableEq κ] (c : LRUCache κ ν) (k : κ)
    (v : ν) : (c.Add k v).capacity = c.capacity := rfl

/-- Right after `Add`, the key maps to the added value, provided there is room for one
entry at all. -/
theorem LRUCache.lookup_Add_self {κ ν : Type} [DecidableEq κ] (c : LRUCache κ ν) (k : κ)
    (v : ν) : (c.Add k v).lookup k = if c.capacity = 0 then none else some v := by
  unfold LRUCache.Add LRUCache.lookup
  cases hc : c.capacity with
  | zero => simp
  | succ n => simp [List.take_succ_cons, List.find?_cons]

/-! ## The send path -/

/-- A call of `sendTo` writes at most one frame, the frame of its message. -/
theorem sendTo_writes (env : Env) (message : Bytes) (receiver : ConnInfo) (st : State) :
    (sendTo env message receiver st).writes = st.writes ∨
    ∃ c f, env.Frame message = .ok f ∧
      (sendTo env message receiver st).writes = st.writes ++ [(c, f)] := by
  unfold sendTo createConnection
  dsimp only
  split
  · split
    · split
      · simp
      · refine Or.inr ⟨_, _, ?_, rfl⟩
        assumption
    · simp
  · split <;> rename_i heq
    · left
      split_ifs at heq <;> simp at heq <;> (obtain ⟨_, rfl⟩ := heq; rfl)
    · split
      · left
        split_ifs at heq <;> simp at heq
        obtain ⟨_, rfl⟩ := heq; rfl
      · rename_i conn st1 _ frame hf
        right
        refine ⟨conn, frame, hf, ?_⟩
        split_ifs at heq <;> simp at heq
        obtain ⟨_, rfl⟩ := heq; rfl

/-- To a reachable receiver, `sendTo` writes exactly one frame when framing succeeds,
and the receiver stays reachable. -/
theorem sendTo_delivers (env : Env) (message : Bytes) (receiver : ConnInfo) (st : State)
    (f : Bytes) (hreach : canReach env receiver st) (hframe : env.Frame message = .ok f) :
    (∃ c, (sendTo env message receiver st).writes = st.writes ++ [(c, f)]) ∧
    canReach env receiver (sendTo env message receiver st) := by
  obtain ⟨htcp, hdial, hcache⟩ := hreach
  have hfst := LRUCache.Get_fst st.connCache
    { local_ := env.serverConnInfo, remote := receiver }
  unfold sendTo createConnection canReach
  dsimp only
  split
  · rename_i cached cache1 hget
    rw [hget] at hfst
    split
    · rename_i conn
      rw [hframe]
      refine ⟨⟨conn, rfl⟩, htcp, hdial, ?_⟩
      intro x
      dsimp only
      rw [LRUCache.lookup_Add_self]
      split_ifs <;> simp
    · rename_i x
      exact absurd hfst.symm (hcache x)
  · rename_i cache1 hget
    simp only [htcp, hdial, if_true, hframe]
    refine ⟨⟨_, rfl⟩, trivial, fun _ => trivial, ?_⟩
    intro x
    rw [LRUCache.lookup_Add_self]
    split_ifs <;> simp

/-- A call of `sendNotificationMsg` writes at most one frame. -/
theorem sendNotificationMsg_writes (env : Env) (token : Token) (sender : ConnInfo)
    (ty : NotificationType) (st : State) :
    (sendNotificationMsg env token sender ty st).writes = st.writes ∨
    ∃ c n f, env.CreateNotificationMsg token ty "" = .ok n ∧ env.Frame n = .ok f ∧
      (sendNotificationMsg env token sender ty st).writes = st.writes ++ [(c, f)] := by
  unfold sendNotificationMsg
  split
  · exact Or.inl rfl
  · rename_i n hn
    rcases sendTo_writes env n sender st with h | ⟨c, f, hf, h⟩
    · exact Or.inl h
    · exact Or.inr ⟨c, n, f, hn, hf, h⟩

/-- To a reachable sender, `sendNotificationMsg` writes exactly one frame, the frame of
the notification message for its token and type, when encoding and framing succeed. -/
theorem sendNotificationMsg_delivers (env : Env) (token : Token) (sender : ConnInfo)
    (ty : NotificationType) (st : State) (n f : Bytes)
    (hreach : canReach env sender st)
    (hmsg : env.CreateNotificationMsg token ty "" = .ok n)
    (hframe : env.Frame n = .ok f) :
    (∃ c, (sendNotificationMsg env token sender ty st).writes = st.writes ++ [(c, f)]) ∧
    canReach env sender (sendNotificationMsg env token sender ty st) := by
  unfold sendNotificationMsg
  rw [hmsg]
  exact sendTo_delivers env n sender st f hreach hframe

/-! ## The loop of `deliver` -/

theorem deliverSections_append (env : Env) (msg : RainsMessage) (sender : ConnInfo)
    (xs ys : List MessageSection) (st : State) :
    deliverSections env msg sender (xs ++ ys) st =
      deliverSections env msg sender ys (deliverSections env msg sender xs st) := by
  simp [deliverSections, List.foldl_append]

theorem deliverSections_cons (env : Env) (msg : RainsMessage) (sender : ConnInfo)
    (x : MessageSection) (ys : List MessageSection) (st : State) :
    deliverSections env msg sender (x :: ys) st =
      deliverSections env msg sender ys (deliverSection env msg sender st x) := by
  simp [deliverSections]

/-- A buffer within the size limit that parses and whose signatures verify is handled by
the capability block followed by the section loop. -/
theorem deliver_eq_deliverSections (env : Env) (message : Bytes) (sender : ConnInfo)
    (st : State) (msg : RainsMessage)
    (hlen : message.length ≤ env.MaxMsgByteLength)
    (hparse : env.ParseByteSlice message = (msg, none))
    (hsig : env.verifyMessageSignature msg.Signatures = true) :
    deliver env message sender st =
      deliverSections env msg sender msg.Content (negotiateCapabilities env msg sender st) := by
  unfold deliver
  rw [if_neg (by omega)]
  simp [hparse, hsig]

/-- One pass of the loop only ever appends to the three channels and only ever removes
from the active tokens. -/
theorem deliverSection_grows (env : Env) (msg : RainsMessage) (sender : ConnInfo)
    (st : State) (m : MessageSection) :
    st.prioChannel <+: (deliverSection env msg sender st m).prioChannel ∧
    st.normalChannel <+: (deliverSection env msg sender st m).normalChannel ∧
    st.notificationChannel <+: (deliverSection env msg sender st m).notificationChannel ∧
    (∀ t, t ∈ (deliverSection env msg sender st m).activeTokens → t ∈ st.activeTokens) := by
  cases m with
  | AssertionSection a =>
    simp only [deliverSection, addMsgSectionToQueue]
    split_ifs <;> simp
  | ShardSection a =>
    simp only [deliverSection, addMsgSectionToQueue]
    split_ifs <;> simp
  | ZoneSection a =>
    simp only [deliverSection, addMsgSectionToQueue]
    split_ifs <;> simp
  | QuerySection q =>
    simp only [deliverSection, addQueryToQueue]
    split_ifs
    · simp
    · have h := sameQueues_trans
        (sendNotificationMsg_sameQueues env q.Token sender .BadMessage
          (sendNotificationMsg env msg.Token sender .BadMessage st))
        (sendNotificationMsg_sameQueues env msg.Token sender .BadMessage st)
      obtain ⟨h1, h2, h3, h4⟩ := h
      rw [h1, h2, h3, h4]
      simp
  | NotificationSection n =>
    simp only [deliverSection, addNotificationToQueue]
    split_ifs
    · simp only [List.prefix_refl, List.prefix_append, true_and]
      intro t ht
      exact (List.mem_filter.mp ht).1
    · simp
  | unsupported x => simp [deliverSection]

theorem deliverSections_grows (env : Env) (msg : RainsMessage) (sender : ConnInfo)
    (sections : List MessageSection) (st : State) :
    st.prioChannel <+: (deliverSections env msg sender sections st).prioChannel ∧
    st.normalChannel <+: (deliverSections env msg sender sections st).normalChannel ∧
    st.notificationChannel <+:
      (deliverSections env msg sender sections st).notificationChannel ∧
    (∀ t, t ∈ (deliverSections env msg sender sections st).activeTokens →
      t ∈ st.activeTokens) := by
  induction sections generalizing st with
  | nil => simp [deliverSections]
  | cons x xs ih =>
    rw [deliverSections_cons]
    obtain ⟨a1, a2, a3, a4⟩ := deliverSection_grows env msg sender st x
    obtain ⟨b1, b2, b3, b4⟩ := ih (deliverSection env msg sender st x)
    exact ⟨a1.trans b1, a2.trans b2, a3.trans b3, fun t ht => a4 t (b4 t ht)⟩

/-- A pass of the loop over a section that is not a notification keeps the active tokens. -/
theorem deliverSection_activeTokens (env : Env) (msg : RainsMessage) (sender : ConnInfo)
    (st : State) (m : MessageSection) (hm : m.isNotification = false) :
    (deliverSection env msg sender st m).activeTokens = st.activeTokens := by
  cases m with
  | AssertionSection a =>
    simp only [deliverSection, addMsgSectionToQueue]
    split_ifs <;> rfl
  | ShardSection a =>
    simp only [deliverSection, addMsgSectionToQueue]
    split_ifs <;> rfl
  | ZoneSection a =>
    simp only [deliverSection, addMsgSectionToQueue]
    split_ifs <;> rfl
  | QuerySection q =>
    simp only [deliverSection, addQueryToQueue]
    split_ifs
    · rfl
    · exact ((sendNotificationMsg_sameQueues env q.Token sender .BadMessage _).2.2.2).trans
        (sendNotificationMsg_sameQueues env msg.Token sender .BadMessage st).2.2.2
  | NotificationSection n => simp [MessageSection.isNotification] at hm
  | unsupported x => rfl

theorem deliverSections_activeTokens (env : Env) (msg : RainsMessage) (sender : ConnInfo)
    (sections : List MessageSection) (st : State)
    (h : ∀ m ∈ sections, m.isNotification = false) :
    (deliverSections env msg sender sections st).activeTokens = st.activeTokens := by
  induction sections generalizing st with
  | nil => rfl
  | cons x xs ih =>
    rw [deliverSections_cons, ih _ (fun m hm => h m (List.mem_cons_of_mem _ hm)),
      deliverSection_activeTokens env msg sender st x (h x (List.mem_cons_self _ _))]

/-- Once the loop has passed a Notification section, the envelope token is not active. -/
theorem deliverSections_clears_token (env : Env) (msg : RainsMessage) (sender : ConnInfo)
    (sections : List MessageSection) (st : State)
    (h : ∃ x ∈ sections, x.isNotification = true) :
    msg.Token ∉ (deliverSections env msg sender sections st).activeTokens := by
  induction sections generalizing st with
  | nil => simp at h
  | cons x xs ih =>
    rw [deliverSections_cons]
    by_cases hx : x.isNotification = true
    · intro hin
      have hin1 := (deliverSections_grows env msg sender xs
        (deliverSection env msg sender st x)).2.2.2 msg.Token hin
      cases x <;> simp [MessageSection.isNotification] at hx
      simp only [deliverSection, addNotificationToQueue] at hin1
      split_ifs at hin1 with hact
      · simp [List.mem_filter] at hin1
      · exact hact hin1
    · obtain ⟨y, hy, hyn⟩ := h
      rcases List.mem_cons.mp hy with rfl | hy
      · exact absurd hyn hx
      · exact ih _ ⟨y, hy, hyn⟩

/-! ## Routing of assertions, shards and zones -/

/-- C1, counterexample. Token `7` is in the active tokens when `deliver` is called and
the message, with envelope token `7` and valid signatures, holds a Notification followed
by a Shard.  The Notification removes the token, and the Shard is put on the normal
channel; the priority channel stays empty. -/
theorem deliver_active_token_section_on_normal_channel :
    (7 : Token) ∈ (sampleState [7, 8]).activeTokens ∧
    (sampleEnv sampleNotificationShardMsg none).verifyMessageSignature
        sampleNotificationShardMsg.Signatures = true ∧
    (deliver (sampleEnv sampleNotificationShardMsg none) [0] samplePeer
        (sampleState [7, 8])).prioChannel = [] ∧
    (deliver (sampleEnv sampleNotificationShardMsg none) [0] samplePeer
        (sampleState [7, 8])).normalChannel =
      [{ Sender := samplePeer, Msg := .ShardSection 5, Token := 7 }] := by
  decide

/-- C1, amended. For every buffer that `deliver` parses into a message `msg` with valid
signatures and every Assertion, Shard or Zone section `m` of it
(`msg.Content = pre ++ m :: post`), with `before` the state in which the loop of
`deliver` reaches `m` and `after` the state in which it leaves it: if the envelope token
is in the active tokens when `deliver` is called and no Notification section comes before
`m`, the item `(sender, m, msg.Token)` is appended to the priority channel and the normal
channel is left as it is; if the token is not in the active tokens when `deliver` is
called, or a Notification section comes before `m`, the item is appended to the normal
channel and the priority channel is left as it is; either way the item stays on that
channel until the end of `deliver`, and the step changes neither the active tokens nor
the notification channel. -/
theorem deliver_routes_section_by_token_activity (env : Env) (message : Bytes)
    (sender : ConnInfo) (st : State) (msg : RainsMessage)
    (pre post : List MessageSection) (m : MessageSection)
    (hlen : message.length ≤ env.MaxMsgByteLength)
    (hparse : env.ParseByteSlice message = (msg, none))
    (hsig : env.verifyMessageSignature msg.Signatures = true)
    (hcontent : msg.Content = pre ++ m :: post)
    (hm : m.isAssertionShardZone = true) :
    let item : msgSectionSender := { Sender := sender, Msg := m, Token := msg.Token }
    let before := deliverSections env msg sender pre (negotiateCapabilities env msg sender st)
    let after := deliverSection env msg sender before m
    let final := deliver env message sender st
    final = deliverSections env msg sender post after ∧
    (msg.Token ∈ st.activeTokens → (∀ x ∈ pre, x.isNotification = false) →
      after.prioChannel = before.prioChannel ++ [item] ∧
      after.normalChannel = before.normalChannel ∧
      before.prioChannel ++ [item] <+: final.prioChannel) ∧
    (msg.Token ∉ st.activeTokens ∨ (∃ x ∈ pre, x.isNotification = true) →
      after.normalChannel = before.normalChannel ++ [item] ∧
      after.prioChannel = before.prioChannel ∧
      before.normalChannel ++ [item] <+: final.normalChannel) ∧
    after.activeTokens = before.activeTokens ∧
    after.notificationChannel = before.notificationChannel := by
  intro item before after final
  have hfinal : final = deliverSections env msg sender post after := by
    show deliver env message sender st = _
    rw [deliver_eq_deliverSections env message sender st msg hlen hparse hsig, hcontent,
      deliverSections_append, deliverSections_cons]
  have hstep : after = addMsgSectionToQueue m msg.Token sender before := by
    show deliverSection env msg sender before m = _
    cases m <;> simp [MessageSection.isAssertionShardZone] at hm <;> rfl
  have hgrow := deliverSections_grows env msg sender post after
  have hneg := negotiateCapabilities_sameQueues env msg sender st
  refine ⟨hfinal, ?_, ?_, ?_, ?_⟩
  · intro hcall hpre
    have hin : msg.Token ∈ before.activeTokens := by
      show msg.Token ∈ (deliverSections env msg sender pre _).activeTokens
      rw [deliverSections_activeTokens env msg sender pre _ hpre, hneg.2.2.2]
      exact hcall
    have h1 : after.prioChannel = before.prioChannel ++ [item] := by
      rw [hstep]; simp [addMsgSectionToQueue, hin, item]
    have h2 : after.normalChannel = before.normalChannel := by
      rw [hstep]; simp [addMsgSectionToQueue, hin]
    refine ⟨h1, h2, ?_⟩
    rw [hfinal, ← h1]
    exact hgrow.1
  · intro hcase
    have hout : msg.Token ∉ before.activeTokens := by
      rcases hcase with hcall | hex
      · intro hin
        apply hcall
        have := (deliverSections_grows env msg sender pre
          (negotiateCapabilities env msg sender st)).2.2.2 msg.Token hin
        rwa [hneg.2.2.2] at this
      · exact deliverSections_clears_token env msg sender pre _ hex
    have h1 : after.normalChannel = before.normalChannel ++ [item] := by
      rw [hstep]; simp [addMsgSectionToQueue, hout, item]
    have h2 : after.prioChannel = before.prioChannel := by
      rw [hstep]; simp [addMsgSectionToQueue, hout]
    refine ⟨h1, h2, ?_⟩
    rw [hfinal, ← h1]
    exact hgrow.2.1
  · rw [hstep]; unfold addMsgSectionToQueue; split_ifs <;> rfl
  · rw [hstep]; unfold addMsgSectionToQueue; split_ifs <;> rfl

/-- C1 amended, at a sample input: token `7` is active at the call, the message holds a
Shard and an Assertion and no Notification, and the Assertion ends up second on the
priority channel while the normal channel stays empty. -/
theorem deliver_routes_section_by_token_activity_witness :
    (deliver (sampleEnv sampleShardAssertionMsg none) [0] samplePeer
        (sampleState [7])).prioChannel =
      [{ Sender := samplePeer, Msg := .ShardSection 1, Token := 7 },
       { Sender := samplePeer, Msg := .AssertionSection 2, Token := 7 }] ∧
    (deliver (sampleEnv sampleShardAssertionMsg none) [0] samplePeer
        (sampleState [7])).normalChannel = [] := by
  have h := deliver_routes_section_by_token_activity
    (sampleEnv sampleShardAssertionMsg none) [0] samplePeer (sampleState [7])
    sampleShardAssertionMsg [.ShardSection 1] [] (.AssertionSection 2)
    (by decide) rfl (by decide) rfl rfl
  refine ⟨?_, by decide⟩
  have h1 := h.1
  have h2 := (h.2.1 (by decide) (by decide)).1
  rw [h1]
  exact h2

/-! ## Routing of notifications -/

/-- C2. For every buffer that `deliver` parses into a message `msg` with valid signatures
and every Notification section `m` of it (`msg.Content = pre ++ m :: post`), with
`before` and `after` the states in which the loop reaches and leaves `m`: if the envelope
token is active, exactly the item `(sender, m, msg.Token)` is appended to the
notification channel, the priority and normal channels are left as they are, and the
token, and no other, is removed from the active tokens, so that handling the same
section once more changes nothing; if the token is not active the state is left as it
is.  For a message that holds this section alone, a second `deliver` of the same buffer
leaves the three channels and the active tokens as the first left them. -/
theorem deliver_notification_enqueued_once (env : Env) (message : Bytes)
    (sender : ConnInfo) (st : State) (msg : RainsMessage)
    (pre post : List MessageSection) (n : Nat)
    (hlen : message.length ≤ env.MaxMsgByteLength)
    (hparse : env.ParseByteSlice message = (msg, none))
    (hsig : env.verifyMessageSignature msg.Signatures = true)
    (hcontent : msg.Content = pre ++ .NotificationSection n :: post) :
    let m : MessageSection := .NotificationSection n
    let item : msgSectionSender := { Sender := sender, Msg := m, Token := msg.Token }
    let before := deliverSections env msg sender pre (negotiateCapabilities env msg sender st)
    let after := deliverSection env msg sender before m
    let first := deliver env message sender st
    let second := deliver env message sender first
    first = deliverSections env msg sender post after ∧
    (msg.Token ∈ before.activeTokens →
      after.notificationChannel = before.notificationChannel ++ [item] ∧
      after.prioChannel = before.prioChannel ∧
      after.normalChannel = before.normalChannel ∧
      msg.Token ∉ after.activeTokens ∧
      (∀ t, t ≠ msg.Token → (t ∈ after.activeTokens ↔ t ∈ before.activeTokens)) ∧
      sameNetwork after before ∧
      deliverSection env msg sender after m = after) ∧
    (msg.Token ∉ before.activeTokens → after = before) ∧
    (pre = [] → post = [] →
      (msg.Token ∈ st.activeTokens →
        first.notificationChannel = st.notificationChannel ++ [item] ∧
        first.prioChannel = st.prioChannel ∧
        first.normalChannel = st.normalChannel ∧
        msg.Token ∉ first.activeTokens) ∧
      (msg.Token ∉ st.activeTokens → sameQueues first st) ∧
      sameQueues second first) := by
  intro m item before after first second
  have hfirst : first = deliverSections env msg sender post after := by
    show deliver env message sender st = _
    rw [deliver_eq_deliverSections env message sender st msg hlen hparse hsig, hcontent,
      deliverSections_append, deliverSections_cons]
  have hstep : ∀ s : State,
      deliverSection env msg sender s m = addNotificationToQueue m msg.Token sender s :=
    fun _ => rfl
  have hgone : ∀ s : State,
      msg.Token ∉ (addNotificationToQueue m msg.Token sender s).activeTokens := by
    intro s
    unfold addNotificationToQueue
    split_ifs with h
    · simp [List.mem_filter]
    · exact h
  refine ⟨hfirst, ?_, ?_, ?_⟩
  · intro hin
    have hafter : after = addNotificationToQueue m msg.Token sender before := hstep before
    refine ⟨?_, ?_, ?_, ?_, ?_, ?_, ?_⟩
    · rw [hafter]; simp [addNotificationToQueue, hin, item]
    · rw [hafter]; simp [addNotificationToQueue, hin]
    · rw [hafter]; simp [addNotificationToQueue, hin]
    · rw [hafter]; exact hgone before
    · intro t ht
      rw [hafter]
      simp [addNotificationToQueue, hin, List.mem_filter, ht]
    · rw [hafter]; simp [addNotificationToQueue, hin, sameNetwork]
    · rw [hstep after]
      have := hgone before
      rw [← hafter] at this
      simp [addNotificationToQueue, this]
  · intro hout
    show deliverSection env msg sender before m = before
    rw [hstep before]
    simp [addNotificationToQueue, hout]
  · intro hpre hpost
    have hneg := negotiateCapabilities_sameQueues env msg sender st
    have hcontent1 : msg.Content = [m] := by rw [hcontent, hpre, hpost]; rfl
    have hdel : ∀ s : State, deliver env message sender s =
        addNotificationToQueue m msg.Token sender (negotiateCapabilities env msg sender s) := by
      intro s
      rw [deliver_eq_deliverSections env message sender s msg hlen hparse hsig, hcontent1]
      rfl
    have hfirst1 : first =
        addNotificationToQueue m msg.Token sender (negotiateCapabilities env msg sender st) :=
      hdel st
    refine ⟨?_, ?_, ?_⟩
    · intro hin
      have hin1 : msg.Token ∈ (negotiateCapabilities env msg sender st).activeTokens := by
        rw [hneg.2.2.2]; exact hin
      refine ⟨?_, ?_, ?_, ?_⟩
      · rw [hfirst1]; simp [addNotificationToQueue, hin1, item, hneg.2.2.1]
      · rw [hfirst1]; simp [addNotificationToQueue, hin1, hneg.1]
      · rw [hfirst1]; simp [addNotificationToQueue, hin1, hneg.2.1]
      · rw [hfirst1]; exact hgone _
    · intro hout
      have hout1 : msg.Token ∉ (negotiateCapabilities env msg sender st).activeTokens := by
        rw [hneg.2.2.2]; exact hout
      rw [hfirst1]
      simp only [addNotificationToQueue, hout1, if_false]
      exact hneg
    · have hgone1 : msg.Token ∉ first.activeTokens := by rw [hfirst1]; exact hgone _
      have hneg1 := negotiateCapabilities_sameQueues env msg sender first
      have hout1 : msg.Token ∉ (negotiateCapabilities env msg sender first).activeTokens := by
        rw [hneg1.2.2.2]; exact hgone1
      show sameQueues (deliver env message sender first) first
      rw [hdel first]
      simp only [addNotificationToQueue, hout1, if_false]
      exact hneg1

/-- C2 at a sample input: token `7` is active and the message holds one Notification;
the first `deliver` puts one item on the notification channel and clears the token. -/
theorem deliver_notification_enqueued_once_witness :
    (deliver (sampleEnv sampleNotificationMsg none) [0] samplePeer
        (sampleState [7, 8])).notificationChannel =
      [{ Sender := samplePeer, Msg := .NotificationSection 3, Token := 7 }] ∧
    7 ∉ (deliver (sampleEnv sampleNotificationMsg none) [0] samplePeer
        (sampleState [7, 8])).activeTokens ∧
    sameQueues
      (deliver (sampleEnv sampleNotificationMsg none) [0] samplePeer
        (deliver (sampleEnv sampleNotificationMsg none) [0] samplePeer (sampleState [7, 8])))
      (deliver (sampleEnv sampleNotificationMsg none) [0] samplePeer (sampleState [7, 8])) := by
  have h := (deliver_notification_enqueued_once
    (sampleEnv sampleNotificationMsg none) [0] samplePeer (sampleState [7, 8])
    sampleNotificationMsg [] [] 3 (by decide) rfl (by decide) rfl).2.2.2 rfl rfl
  have h1 := h.1 (by decide)
  exact ⟨h1.1, h1.2.2.2, h.2.2⟩

/-! ## Routing of queries -/

/-- C3. For every buffer that `deliver` parses into a message `msg` with valid signatures
and every Query section `q` of it (`msg.Content = pre ++ q :: post`), with `before` and
`after` the states in which the loop reaches and leaves `q`: if the token of `q` equals
the envelope token, the only change is that the item `(sender, q, msg.Token)` is appended
to the normal channel, whether or not the token is active, and nothing is sent; if the
tokens differ, the step is `sendNotificationMsg` with type `BadMessage` called twice for
`sender`, first with the envelope token and then with the token of `q`, the channels, the
active tokens and the capability caches are left as they are, and when the sender can be
reached and encoding and framing succeed, exactly the two notification frames are
written, in that order. -/
theorem deliver_query_token_check (env : Env) (message : Bytes)
    (sender : ConnInfo) (st : State) (msg : RainsMessage)
    (pre post : List MessageSection) (q : QuerySection)
    (hlen : message.length ≤ env.MaxMsgByteLength)
    (hparse : env.ParseByteSlice message = (msg, none))
    (hsig : env.verifyMessageSignature msg.Signatures = true)
    (hcontent : msg.Content = pre ++ .QuerySection q :: post) :
    let m : MessageSection := .QuerySection q
    let item : msgSectionSender := { Sender := sender, Msg := m, Token := msg.Token }
    let before := deliverSections env msg sender pre (negotiateCapabilities env msg sender st)
    let after := deliverSection env msg sender before m
    deliver env message sender st = deliverSections env msg sender post after ∧
    (msg.Token = q.Token →
      after = { before with normalChannel := before.normalChannel ++ [item] }) ∧
    (msg.Token ≠ q.Token →
      after = sendNotificationMsg env q.Token sender .BadMessage
                (sendNotificationMsg env msg.Token sender .BadMessage before) ∧
      sameQueues after before ∧ sameCapabilityCaches after before ∧
      (∀ n1 n2 f1 f2, canReach env sender before →
        env.CreateNotificationMsg msg.Token .BadMessage "" = .ok n1 →
        env.CreateNotificationMsg q.Token .BadMessage "" = .ok n2 →
        env.Frame n1 = .ok f1 → env.Frame n2 = .ok f2 →
        ∃ c1 c2, after.writes = before.writes ++ [(c1, f1), (c2, f2)])) := by
  intro m item before after
  have hstep : after = addQueryToQueue env q msg sender before := rfl
  refine ⟨?_, ?_, ?_⟩
  · rw [deliver_eq_deliverSections env message sender st msg hlen hparse hsig, hcontent,
      deliverSections_append, deliverSections_cons]
  · intro heq
    rw [hstep]
    simp [addQueryToQueue, heq, item, m]
  · intro hne
    have hafter : after = sendNotificationMsg env q.Token sender .BadMessage
        (sendNotificationMsg env msg.Token sender .BadMessage before) := by
      rw [hstep]
      simp [addQueryToQueue, hne]
    refine ⟨hafter, ?_, ?_, ?_⟩
    · rw [hafter]
      exact sameQueues_trans (sendNotificationMsg_sameQueues _ _ _ _ _)
        (sendNotificationMsg_sameQueues _ _ _ _ _)
    · rw [hafter]
      exact sameCapabilityCaches_trans (sendNotificationMsg_sameCapabilityCaches _ _ _ _ _)
        (sendNotificationMsg_sameCapabilityCaches _ _ _ _ _)
    · intro n1 n2 f1 f2 hreach hn1 hn2 hf1 hf2
      obtain ⟨⟨c1, hw1⟩, hreach1⟩ :=
        sendNotificationMsg_delivers env msg.Token sender .BadMessage before n1 f1
          hreach hn1 hf1
      obtain ⟨⟨c2, hw2⟩, _⟩ :=
        sendNotificationMsg_delivers env q.Token sender .BadMessage _ n2 f2 hreach1 hn2 hf2
      refine ⟨c1, c2, ?_⟩
      rw [hafter, hw2, hw1]
      simp

/-- C3 at a sample input: the envelope token is `7`, the query token `9`; nothing is
enqueued and two `BadMessage` frames are written on the connection dialled to the peer,
the first for token `7`, the second for token `9`. -/
theorem deliver_query_token_check_witness :
    sameQueues
      (deliver (sampleEnv sampleQueryMismatchMsg none) [0] samplePeer (sampleState []))
      (sampleState []) ∧
    (deliver (sampleEnv sampleQueryMismatchMsg none) [0] samplePeer (sampleState [])).writes =
      [(⟨0⟩, [7, 400, 10]), (⟨0⟩, [9, 400, 10])] := by
  have h := deliver_query_token_check
    (sampleEnv sampleQueryMismatchMsg none) [0] samplePeer (sampleState [])
    sampleQueryMismatchMsg [] [] { Token := 9, body := 0 } (by decide) rfl (by decide) rfl
  have h1 := h.1
  have h2 := (h.2.2 (by decide)).2.1
  refine ⟨?_, by decide⟩
  rw [h1]
  exact h2

/-! ## Signature failure -/

/-- C4. For every buffer that `deliver` parses into a message whose signatures do not
verify, whatever its sections: `deliver` stops after the capability block, so the three
channels and the active tokens are left as they are, and the connection cache, the dial
log and the write log are left as they are (nothing is sent to anyone); a second
`deliver` of the same buffer again changes none of them. -/
theorem deliver_invalid_signature_no_effect (env : Env) (message : Bytes)
    (sender : ConnInfo) (st : State) (msg : RainsMessage)
    (hlen : message.length ≤ env.MaxMsgByteLength)
    (hparse : env.ParseByteSlice message = (msg, none))
    (hsig : env.verifyMessageSignature msg.Signatures = false) :
    let first := deliver env message sender st
    let second := deliver env message sender first
    first = negotiateCapabilities env msg sender st ∧
    sameQueues first st ∧ sameNetwork first st ∧
    sameQueues second st ∧ sameNetwork second st := by
  intro first second
  have hdel : ∀ s : State,
      deliver env message sender s = negotiateCapabilities env msg sender s := by
    intro s
    unfold deliver
    rw [if_neg (by omega)]
    simp [hparse, hsig]
  have hfirst : first = negotiateCapabilities env msg sender st := hdel st
  have hsecond : second = negotiateCapabilities env msg sender first := hdel first
  have q1 : sameQueues first st := by
    rw [hfirst]; exact negotiateCapabilities_sameQueues env msg sender st
  have n1 : sameNetwork first st := by
    rw [hfirst]; exact negotiateCapabilities_sameNetwork env msg sender st
  have q2 : sameQueues second first := by
    rw [hsecond]; exact negotiateCapabilities_sameQueues env msg sender first
  have n2 : sameNetwork second first := by
    rw [hsecond]; exact negotiateCapabilities_sameNetwork env msg sender first
  refine ⟨hfirst, q1, n1, sameQueues_trans q2 q1, ?_⟩
  exact ⟨n2.1.trans n1.1, n2.2.1.trans n1.2.1, n2.2.2.1.trans n1.2.2.1,
    n2.2.2.2.trans n1.2.2.2⟩

/-- C4 at a sample input: token `7` is active, the signatures fail, and the state after
`deliver` is the state before it. -/
theorem deliver_invalid_signature_no_effect_witness :
    deliver (sampleEnv sampleBadSignatureMsg none) [0] samplePeer (sampleState [7]) =
      sampleState [7] :=
  (deliver_invalid_signature_no_effect (sampleEnv sampleBadSignatureMsg none) [0]
    samplePeer (sampleState [7]) sampleBadSignatureMsg (by decide) rfl (by decide)).1.trans
    (by decide)

/-! ## Oversized and malformed buffers -/

/-- C5. For every buffer longer than `MaxMsgByteLength` and every sender, `deliver` is
one call of `sendNotificationMsg` for that sender with type `MsgTooLarge` and the token
that `msgParser.Token` extracts from the buffer, and nothing else: the three channels,
the active tokens and both capability caches are left as they are, the outcome does not
depend on what `ParseByteSlice` or `verifyMessageSignature` would return, at most one
frame is written, and when the sender can be reached and encoding and framing succeed,
exactly the frame of that notification is written. -/
theorem deliver_too_large_notifies_once (env : Env) (message : Bytes) (sender : ConnInfo)
    (st : State) (hlen : message.length > env.MaxMsgByteLength) :
    let token := (env.parseToken message).1
    let after := deliver env message sender st
    after = sendNotificationMsg env token sender .MsgTooLarge st ∧
    sameQueues after st ∧ sameCapabilityCaches after st ∧
    (∀ (parse : Bytes → RainsMessage × Option String) (verify : List Nat → Bool),
      deliver { env with ParseByteSlice := parse, verifyMessageSignature := verify }
        message sender st = after) ∧
    (after.writes = st.writes ∨
      ∃ c n f, env.CreateNotificationMsg token .MsgTooLarge "" = .ok n ∧
        env.Frame n = .ok f ∧ after.writes = st.writes ++ [(c, f)]) ∧
    (∀ n f, canReach env sender st →
      env.CreateNotificationMsg token .MsgTooLarge "" = .ok n → env.Frame n = .ok f →
      ∃ c, after.writes = st.writes ++ [(c, f)]) := by
  intro token after
  have hafter : after = sendNotificationMsg env token sender .MsgTooLarge st := by
    show deliver env message sender st = _
    unfold deliver
    rw [if_pos hlen]
  refine ⟨hafter, ?_, ?_, ?_, ?_, ?_⟩
  · rw [hafter]; exact sendNotificationMsg_sameQueues _ _ _ _ _
  · rw [hafter]; exact sendNotificationMsg_sameCapabilityCaches _ _ _ _ _
  · intro parse verify
    rw [hafter]
    unfold deliver
    rw [if_pos hlen]
    rfl
  · rw [hafter]; exact sendNotificationMsg_writes _ _ _ _ _
  · intro n f hreach hn hf
    rw [hafter]
    exact (sendNotificationMsg_delivers env token sender .MsgTooLarge st n f hreach hn hf).1

/-- C5 at a sample input: a buffer of five bytes exceeds the limit of four, and the only
change is one dial to the peer and one `MsgTooLarge` frame for the token `9` that heads
the buffer. -/
theorem deliver_too_large_notifies_once_witness :
    deliver (sampleEnv sampleShardAssertionMsg none) [9, 1, 2, 3, 4] samplePeer
        (sampleState [7]) =
      { sampleState [7] with
        writes := [(⟨0⟩, [9, 413, 10])], dials := [samplePeer], nextConn := 1,
        connCache :=
          { capacity := 10,
            entries := [({ local_ := sampleServer, remote := samplePeer }, .netConn ⟨0⟩)] } } :=
  (deliver_too_large_notifies_once (sampleEnv sampleShardAssertionMsg none) [9, 1, 2, 3, 4]
    samplePeer (sampleState [7]) (by decide)).1.trans (by decide)

/-- C6. For every buffer of length at most `MaxMsgByteLength` on which `ParseByteSlice`
returns an error, and every sender, `deliver` is one call of `sendNotificationMsg` for
that sender with type `BadMessage` and the token of the message the parser returned, and
nothing else: the three channels, the active tokens and both capability caches are left
as they are, at most one frame is written, and when the sender can be reached and
encoding and framing succeed, exactly the frame of that notification is written. -/
theorem deliver_unparsable_notifies_once (env : Env) (message : Bytes) (sender : ConnInfo)
    (st : State) (msg : RainsMessage) (err : String)
    (hlen : message.length ≤ env.MaxMsgByteLength)
    (hparse : env.ParseByteSlice message = (msg, some err)) :
    let after := deliver env message sender st
    after = sendNotificationMsg env msg.Token sender .BadMessage st ∧
    sameQueues after st ∧ sameCapabilityCaches after st ∧
    (after.writes = st.writes ∨
      ∃ c n f, env.CreateNotificationMsg msg.Token .BadMessage "" = .ok n ∧
        env.Frame n = .ok f ∧ after.writes = st.writes ++ [(c, f)]) ∧
    (∀ n f, canReach env sender st →
      env.CreateNotificationMsg msg.Token .BadMessage "" = .ok n → env.Frame n = .ok f →
      ∃ c, after.writes = st.writes ++ [(c, f)]) := by
  intro after
  have hafter : after = sendNotificationMsg env msg.Token sender .BadMessage st := by
    show deliver env message sender st = _
    unfold deliver
    rw [if_neg (by omega)]
    simp [hparse]
  refine ⟨hafter, ?_, ?_, ?_, ?_⟩
  · rw [hafter]; exact sendNotificationMsg_sameQueues _ _ _ _ _
  · rw [hafter]; exact sendNotificationMsg_sameCapabilityCaches _ _ _ _ _
  · rw [hafter]; exact sendNotificationMsg_writes _ _ _ _ _
  · intro n f hreach hn hf
    rw [hafter]
    exact (sendNotificationMsg_delivers env msg.Token sender .BadMessage st n f hreach hn hf).1

/-- C6 at a sample input: the parser fails and returns the zero message, and the only
change is one dial to the peer and one `BadMessage` frame for the zero token. -/
theorem deliver_unparsable_notifies_once_witness :
    deliver (sampleEnv sampleZeroMsg (some "malformed")) [1, 2] samplePeer
        (sampleState [7]) =
      { sampleState [7] with
        writes := [(⟨0⟩, [0, 400, 10])], dials := [samplePeer], nextConn := 1,
        connCache :=
          { capacity := 10,
            entries := [({ local_ := sampleServer, remote := samplePeer }, .netConn ⟨0⟩)] } } :=
  (deliver_unparsable_notifies_once (sampleEnv sampleZeroMsg (some "malformed")) [1, 2]
    samplePeer (sampleState [7]) sampleZeroMsg "malformed" (by decide) rfl).1.trans
    (by decide)

/-! ## Dependence of the routing on earlier sections -/

/-- C7, counterexample. Two messages with the same envelope token `7` and valid
signatures are delivered from the same peer in the same state, in which `7` is active.
The Assertion that is alone in its message goes on the priority channel; the same
Assertion behind a Notification goes on the normal channel. -/
theorem deliver_routing_depends_on_earlier_notification :
    (7 : Token) ∈ (sampleState [7]).activeTokens ∧
    (deliver (sampleEnv sampleAssertionMsg none) [0] samplePeer
        (sampleState [7])).prioChannel =
      [{ Sender := samplePeer, Msg := .AssertionSection 1, Token := 7 }] ∧
    (deliver (sampleEnv sampleAssertionMsg none) [0] samplePeer
        (sampleState [7])).normalChannel = [] ∧
    (deliver (sampleEnv sampleNotificationAssertionMsg none) [0] samplePeer
        (sampleState [7])).prioChannel = [] ∧
    (deliver (sampleEnv sampleNotificationAssertionMsg none) [0] samplePeer
        (sampleState [7])).normalChannel =
      [{ Sender := samplePeer, Msg := .AssertionSection 1, Token := 7 }] := by
  decide

/-- C7, amended. For every buffer that `deliver` parses into a message `msg` with valid
signatures and every Assertion, Shard or Zone section `m` of it
(`msg.Content = pre ++ m :: post`), the channel of `m` is determined by two facts only:
whether the envelope token is active when `deliver` is called, and whether a
Notification section comes before `m` in the message.  If the token is active at the
call and no Notification comes before `m`, the only change of the step is that the item
is appended to the priority channel; otherwise the only change is that it is appended to
the normal channel.  The sections after `m` and the other sections before it play no
part. -/
theorem deliver_routing_by_activity_and_earlier_notification (env : Env) (message : Bytes)
    (sender : ConnInfo) (st : State) (msg : RainsMessage)
    (pre post : List MessageSection) (m : MessageSection)
    (hlen : message.length ≤ env.MaxMsgByteLength)
    (hparse : env.ParseByteSlice message = (msg, none))
    (hsig : env.verifyMessageSignature msg.Signatures = true)
    (hcontent : msg.Content = pre ++ m :: post)
    (hm : m.isAssertionShardZone = true) :
    let item : msgSectionSender := { Sender := sender, Msg := m, Token := msg.Token }
    let before := deliverSections env msg sender pre (negotiateCapabilities env msg sender st)
    let after := deliverSection env msg sender before m
    deliver env message sender st = deliverSections env msg sender post after ∧
    ((msg.Token ∈ st.activeTokens ∧ ∀ x ∈ pre, x.isNotification = false) →
      after = { before with prioChannel := before.prioChannel ++ [item] }) ∧
    (¬ (msg.Token ∈ st.activeTokens ∧ ∀ x ∈ pre, x.isNotification = false) →
      after = { before with normalChannel := before.normalChannel ++ [item] }) := by
  intro item before after
  have hstep : after = addMsgSectionToQueue m msg.Token sender before := by
    show deliverSection env msg sender before m = _
    cases m <;> simp [MessageSection.isAssertionShardZone] at hm <;> rfl
  have hneg := negotiateCapabilities_sameQueues env msg sender st
  refine ⟨?_, ?_, ?_⟩
  · rw [deliver_eq_deliverSections env message sender st msg hlen hparse hsig, hcontent,
      deliverSections_append, deliverSections_cons]
  · rintro ⟨hin, hpre⟩
    have hbefore : msg.Token ∈ before.activeTokens := by
      show msg.Token ∈ (deliverSections env msg sender pre _).activeTokens
      rw [deliverSections_activeTokens env msg sender pre _ hpre, hneg.2.2.2]
      exact hin
    rw [hstep]
    simp [addMsgSectionToQueue, hbefore, item]
  · intro hnot
    have hbefore : msg.Token ∉ before.activeTokens := by
      by_cases hin : msg.Token ∈ st.activeTokens
      · have hex : ∃ x ∈ pre, x.isNotification = true := by
          by_contra hno
          apply hnot
          refine ⟨hin, fun x hx => ?_⟩
          cases hxn : x.isNotification
          · rfl
          · exact absurd ⟨x, hx, hxn⟩ hno
        exact deliverSections_clears_token env msg sender pre _ hex
      · intro hb
        apply hin
        have := (deliverSections_grows env msg sender pre
          (negotiateCapabilities env msg sender st)).2.2.2 msg.Token hb
        rwa [hneg.2.2.2] at this
    rw [hstep]
    simp [addMsgSectionToQueue, hbefore, item]

/-- C7 amended, at a sample input: token `7` is active at the call, the Assertion comes
after a Notification, and it ends up on the normal channel. -/
theorem deliver_routing_by_activity_and_earlier_notification_witness :
    (deliver (sampleEnv sampleNotificationAssertionMsg none) [0] samplePeer
        (sampleState [7])).normalChannel =
      [{ Sender := samplePeer, Msg := .AssertionSection 1, Token := 7 }] := by
  have h := deliver_routing_by_activity_and_earlier_notification
    (sampleEnv sampleNotificationAssertionMsg none) [0] samplePeer (sampleState [7])
    sampleNotificationAssertionMsg [.NotificationSection 3] [] (.AssertionSection 1)
    (by decide) rfl (by decide) rfl rfl
  have h1 := h.1
  have h2 := h.2.2 (by decide)
  rw [h1]
  exact (congrArg State.normalChannel h2).trans (by decide)

/-! ## The combined worker -/

/-- C8, at the failing input. Both channels hold one item and the pseudo-random choice
of `select` falls on its second ready case: `workBoth` takes the item from the normal
channel and leaves the priority channel non-empty. -/
theorem workBoth_takes_normal_while_prio_waits :
    let a : msgSectionSender :=
      { Sender := samplePeer, Msg := .AssertionSection 1, Token := 7 }
    let b : msgSectionSender :=
      { Sender := samplePeer, Msg := .AssertionSection 2, Token := 8 }
    let st : State := { sampleState [7] with prioChannel := [a], normalChannel := [b] }
    st.prioChannel ≠ [] ∧
    workBothStep 1 st = (.verifyNormal b, { st with normalChannel := [] }) ∧
    workBothStep 0 st = (.verifyPrio a, { st with prioChannel := [] }) := by
  decide

/-- What does hold of one pass through the loop of `workBoth`: it sleeps exactly when
both channels are empty, with the priority channel empty and the normal channel not it
takes the head of the normal channel, and with the normal channel empty and the priority
channel not it takes the head of the priority channel. -/
theorem workBothStep_when_one_channel_empty (pick : Nat) (st : State) :
    ((workBothStep pick st).1 = .sleep ↔ st.prioChannel = [] ∧ st.normalChannel = []) ∧
    (∀ b rest, st.prioChannel = [] → st.normalChannel = b :: rest →
      workBothStep pick st = (.verifyNormal b, { st with normalChannel := rest })) ∧
    (∀ a rest, st.normalChannel = [] → st.prioChannel = a :: rest →
      workBothStep pick st = (.verifyPrio a, { st with prioChannel := rest })) := by
  unfold workBothStep readyCases
  cases hp : st.prioChannel with
  | nil =>
    cases hn : st.normalChannel with
    | nil => simp
    | cons b rest => simp [Nat.mod_one]
  | cons a rest =>
    cases hn : st.normalChannel with
    | nil => simp [Nat.mod_one]
    | cons b rest2 =>
      rcases Nat.mod_two_eq_zero_or_one pick with h | h <;> simp [h]

/-! ## Connection reuse in `sendTo` -/

/-- C9. For every TCP receiver `R` and messages `msg`, `msg2` whose framing succeeds: if
the connection cache has no entry for `(serverConnInfo, R)` and the dial succeeds, then
`sendTo msg R` makes exactly one dial, to `R`, writes the frame of `msg` on the new
connection and adds that connection to the cache under `(serverConnInfo, R)`, changing
nothing else; and in every later state whose cache still holds that connection under that
key, `sendTo msg2 R` makes no dial, writes the frame of `msg2` on that same connection
and adds it to the cache again, changing nothing else.  In a cache with room for at least
one entry the key maps to the connection after either call. -/
theorem sendTo_dials_once_then_reuses (env : Env) (msg msg2 : Bytes) (R : ConnInfo)
    (st : State) (f f2 : Bytes)
    (htcp : R.Type_ = env.TCP)
    (hmiss : st.connCache.lookup { local_ := env.serverConnInfo, remote := R } = none)
    (hdial : env.dialOk R st.dials = true)
    (hframe : env.Frame msg = .ok f) (hframe2 : env.Frame msg2 = .ok f2) :
    let key : AddressPair := { local_ := env.serverConnInfo, remote := R }
    let conn : Conn := ⟨st.nextConn⟩
    sendTo env msg R st =
      { st with nextConn := st.nextConn + 1, dials := st.dials ++ [R],
                writes := st.writes ++ [(conn, f)],
                connCache := st.connCache.Add key (.netConn conn) } ∧
    (0 < st.connCache.capacity →
      (sendTo env msg R st).connCache.lookup key = some (.netConn conn)) ∧
    (∀ later : State, later.connCache.lookup key = some (.netConn conn) →
      sendTo env msg2 R later =
        { later with writes := later.writes ++ [(conn, f2)],
                     connCache := (later.connCache.Get key).2.Add key (.netConn conn) } ∧
      (0 < later.connCache.capacity →
        (sendTo env msg2 R later).connCache.lookup key = some (.netConn conn))) ∧
    (0 < st.connCache.capacity →
      (sendTo env msg2 R (sendTo env msg R st)).dials = st.dials ++ [R] ∧
      (sendTo env msg2 R (sendTo env msg R st)).writes =
        st.writes ++ [(conn, f), (conn, f2)] ∧
      (sendTo env msg2 R (sendTo env msg R st)).connCache.lookup key =
        some (.netConn conn)) := by
  intro key conn
  have hfirst : sendTo env msg R st =
      { st with nextConn := st.nextConn + 1, dials := st.dials ++ [R],
                writes := st.writes ++ [(conn, f)],
                connCache := st.connCache.Add key (.netConn conn) } := by
    have hget : st.connCache.Get key = (none, st.connCache) := by
      unfold LRUCache.Get
      rw [hmiss]
    unfold sendTo createConnection
    simp only [hget, htcp, hdial, if_true, hframe]
  have hlater : ∀ later : State, later.connCache.lookup key = some (.netConn conn) →
      sendTo env msg2 R later =
        { later with writes := later.writes ++ [(conn, f2)],
                     connCache := (later.connCache.Get key).2.Add key (.netConn conn) } := by
    intro later hhit
    have hget : later.connCache.Get key =
        (some (.netConn conn), (later.connCache.Get key).2) := by
      have h1 := LRUCache.Get_fst later.connCache key
      rw [hhit] at h1
      exact Prod.ext h1 rfl
    unfold sendTo
    dsimp only
    rw [hget]
    simp only [hframe2]
  have hkeep : ∀ (c : LRUCache AddressPair CacheValue), 0 < c.capacity →
      (c.Add key (.netConn conn)).lookup key = some (.netConn conn) := by
    intro c hc
    rw [LRUCache.lookup_Add_self, if_neg (by omega)]
  refine ⟨hfirst, ?_, ?_, ?_⟩
  · intro hc
    rw [hfirst]
    exact hkeep _ hc
  · intro later hhit
    refine ⟨hlater later hhit, ?_⟩
    intro hc
    rw [hlater later hhit]
    exact hkeep _ (by rw [LRUCache.Get_snd_capacity]; exact hc)
  · intro hc
    have hhit : (sendTo env msg R st).connCache.lookup key = some (.netConn conn) := by
      rw [hfirst]
      exact hkeep _ hc
    rw [hlater _ hhit]
    refine ⟨?_, ?_, ?_⟩
    · rw [hfirst]
    · rw [hfirst]
      simp
    · refine hkeep _ ?_
      rw [LRUCache.Get_snd_capacity, hfirst]
      exact hc

/-- C9 at a sample input: two sends to the sample peer from the sample state make one
dial and write both frames on connection `0`. -/
theorem sendTo_dials_once_then_reuses_witness :
    (sendTo (sampleEnv sampleZeroMsg none) [2] samplePeer
        (sendTo (sampleEnv sampleZeroMsg none) [1] samplePeer (sampleState []))).dials =
      [samplePeer] ∧
    (sendTo (sampleEnv sampleZeroMsg none) [2] samplePeer
        (sendTo (sampleEnv sampleZeroMsg none) [1] samplePeer (sampleState []))).writes =
      [(⟨0⟩, [1, 10]), (⟨0⟩, [2, 10])] := by
  have h := (sendTo_dials_once_then_reuses (sampleEnv sampleZeroMsg none) [1] [2] samplePeer
    (sampleState []) [1, 10] [2, 10] rfl (by decide) rfl rfl rfl).2.2.2 (by decide)
  exact ⟨h.1, h.2.1⟩

/-! ## Capability negotiation -/

theorem deliverSection_sameCapabilityCaches (env : Env) (msg : RainsMessage)
    (sender : ConnInfo) (st : State) (m : MessageSection) :
    sameCapabilityCaches (deliverSection env msg sender st m) st := by
  cases m with
  | AssertionSection a =>
    simp only [deliverSection, addMsgSectionToQueue, sameCapabilityCaches]
    split_ifs <;> simp
  | ShardSection a =>
    simp only [deliverSection, addMsgSectionToQueue, sameCapabilityCaches]
    split_ifs <;> simp
  | ZoneSection a =>
    simp only [deliverSection, addMsgSectionToQueue, sameCapabilityCaches]
    split_ifs <;> simp
  | QuerySection q =>
    simp only [deliverSection, addQueryToQueue]
    split_ifs
    · simp [sameCapabilityCaches]
    · exact sameCapabilityCaches_trans
        (sendNotificationMsg_sameCapabilityCaches _ _ _ _ _)
        (sendNotificationMsg_sameCapabilityCaches _ _ _ _ _)
  | NotificationSection n =>
    simp only [deliverSection, addNotificationToQueue, sameCapabilityCaches]
    split_ifs <;> simp
  | unsupported x => simp [deliverSection, sameCapabilityCaches]

theorem deliverSections_sameCapabilityCaches (env : Env) (msg : RainsMessage)
    (sender : ConnInfo) (sections : List MessageSection) (st : State) :
    sameCapabilityCaches (deliverSections env msg sender sections st) st := by
  induction sections generalizing st with
  | nil => simp [deliverSections, sameCapabilityCaches]
  | cons x xs ih =>
    rw [deliverSections_cons]
    exact sameCapabilityCaches_trans (ih _) (deliverSection_sameCapabilityCaches _ _ _ _ _)

/-- The loop of `deliver` reads only the token of the envelope. -/
theorem deliverSections_congr_token (env : Env) (msg msg0 : RainsMessage)
    (sender : ConnInfo) (sections : List MessageSection) (st : State)
    (h : msg.Token = msg0.Token) :
    deliverSections env msg sender sections st =
      deliverSections env msg0 sender sections st := by
  induction sections generalizing st with
  | nil => rfl
  | cons x xs ih =>
    rw [deliverSections_cons, deliverSections_cons, ih]
    congr 1
    cases x <;> simp [deliverSection, addQueryToQueue, h]

/-- What `deliver` does once the buffer has been parsed, whatever the signatures. -/
theorem deliver_of_parsed (env : Env) (message : Bytes) (sender : ConnInfo) (st : State)
    (msg : RainsMessage) (hlen : message.length ≤ env.MaxMsgByteLength)
    (hparse : env.ParseByteSlice message = (msg, none)) :
    deliver env message sender st =
      if env.verifyMessageSignature msg.Signatures = true then
        deliverSections env msg sender msg.Content (negotiateCapabilities env msg sender st)
      else negotiateCapabilities env msg sender st := by
  unfold deliver
  rw [if_neg (by omega)]
  simp only [hparse]
  cases env.verifyMessageSignature msg.Signatures <;> simp

/-- C10. For every buffer that `deliver` parses into a message `msg` with a non-empty
capability field and every sender: if the field is a key of the capability cache, after
`deliver` the peer capability cache is the old one with the cached capability list added
under `sender` (so that, in a cache with room for one entry, `sender` maps to that list);
if the field is not in the cache and is neither `TLSOverTCP` nor `NoCapability`, the peer
capability cache is left as it is and `deliver` ends in the same state as for a buffer
that parses into the same message with an empty capability field. -/
theorem deliver_capability_negotiation (env : Env) (message : Bytes) (sender : ConnInfo)
    (st : State) (msg : RainsMessage)
    (hlen : message.length ≤ env.MaxMsgByteLength)
    (hparse : env.ParseByteSlice message = (msg, none))
    (hcap : msg.Capabilities ≠ "") :
    let after := deliver env message sender st
    (∀ caps, st.capabilities.lookup msg.Capabilities = some caps →
      after.peerToCapability = st.peerToCapability.Add sender (.list caps) ∧
      (0 < st.peerToCapability.capacity →
        after.peerToCapability.lookup sender = some (.list caps))) ∧
    (st.capabilities.lookup msg.Capabilities = none →
      msg.Capabilities ≠ env.TLSOverTCP → msg.Capabilities ≠ env.NoCapability →
      after.peerToCapability = st.peerToCapability ∧
      ∀ message0 : Bytes, message0.length ≤ env.MaxMsgByteLength →
        env.ParseByteSlice message0 = ({ msg with Capabilities := "" }, none) →
        after = deliver env message0 sender st) := by
  intro after
  have hafter := deliver_of_parsed env message sender st msg hlen hparse
  have hpeer : after.peerToCapability =
      (negotiateCapabilities env msg sender st).peerToCapability := by
    show (deliver env message sender st).peerToCapability = _
    rw [hafter]
    split_ifs
    · exact (deliverSections_sameCapabilityCaches env msg sender msg.Content _).2
    · rfl
  refine ⟨?_, ?_⟩
  · intro caps hhit
    have hget : st.capabilities.Get msg.Capabilities =
        (some caps, (st.capabilities.Get msg.Capabilities).2) := by
      have h1 := LRUCache.Get_fst st.capabilities msg.Capabilities
      rw [hhit] at h1
      exact Prod.ext h1 rfl
    have hneg : (negotiateCapabilities env msg sender st).peerToCapability =
        st.peerToCapability.Add sender (.list caps) := by
      unfold negotiateCapabilities
      rw [if_pos hcap, hget]
    refine ⟨hpeer.trans hneg, ?_⟩
    intro hc
    rw [hpeer, hneg, LRUCache.lookup_Add_self, if_neg (by omega)]
  · intro hmiss h1 h2
    have hget : st.capabilities.Get msg.Capabilities = (none, st.capabilities) := by
      unfold LRUCache.Get
      rw [hmiss]
    have hneg : negotiateCapabilities env msg sender st = st := by
      unfold negotiateCapabilities
      rw [if_pos hcap, hget]
      simp only [h1, h2, if_false]
    refine ⟨by rw [hpeer, hneg], ?_⟩
    intro message0 hlen0 hparse0
    show deliver env message sender st = _
    rw [hafter, deliver_of_parsed env message0 sender st _ hlen0 hparse0, hneg]
    have hneg0 : negotiateCapabilities env { msg with Capabilities := "" } sender st = st := by
      simp [negotiateCapabilities]
    rw [hneg0]
    rw [deliverSections_congr_token env msg { msg with Capabilities := "" } sender
      msg.Content st rfl]

/-- C10 at sample inputs: a capability field that is a hash installed by `initInbox`
makes the peer map to the capability list stored under that hash; a field that is neither
a cached hash nor a known literal leaves `deliver` with the outcome it has for the same
message without a capability field. -/
theorem deliver_capability_negotiation_witness :
    (deliver (sampleEnv sampleCapabilityHashMsg none) [0] samplePeer
        (sampleState [])).peerToCapability.lookup samplePeer =
      some (.list ["urn:x-rains:tlssrv"]) ∧
    deliver sampleTwoBufferEnv [1] samplePeer (sampleState [7]) =
      deliver sampleTwoBufferEnv [2] samplePeer (sampleState [7]) :=
  ⟨((deliver_capability_negotiation (sampleEnv sampleCapabilityHashMsg none) [0] samplePeer
      (sampleState []) sampleCapabilityHashMsg (by decide) rfl (by decide)).1
      ["urn:x-rains:tlssrv"] (by decide)).2 (by decide),
   ((deliver_capability_negotiation sampleTwoBufferEnv [1] samplePeer (sampleState [7])
      sampleUnknownCapabilityMsg (by decide) rfl (by decide)).2
      (by decide) (by decide) (by decide)).2 [2] (by decide) rfl⟩

/-! ## Connections of an unsupported network type -/

theorem handleConnection_cons (env : Env) (conn : Conn) (client : ConnInfo) (data : Bytes)
    (frames : List Bytes) (st : State) :
    handleConnection env conn client (data :: frames) st =
      handleConnection env conn client frames (deliver env data client st) := by
  simp [handleConnection]

theorem find?_of_find?_take {α : Type} (p : α → Bool) (l : List α) (n : Nat) (e : α)
    (h : (l.take n).find? p = some e) : l.find? p = some e := by
  induction l generalizing n with
  | nil => simp at h
  | cons a l ih =>
    cases n with
    | zero => simp at h
    | succ n =>
      rw [List.take_succ_cons, List.find?_cons] at h
      rw [List.find?_cons]
      cases hp : p a
      · rw [hp] at h
        exact ih n h
      · rw [hp] at h
        exact h

/-- An `Add` under one key brings no entry under another key into the cache. -/
theorem LRUCache.lookup_Add_of_ne {κ ν : Type} [DecidableEq κ] (c : LRUCache κ ν)
    (k k0 : κ) (v x : ν) (hne : k0 ≠ k) (h : (c.Add k v).lookup k0 = some x) :
    c.lookup k0 = some x := by
  unfold LRUCache.Add LRUCache.lookup at h
  unfold LRUCache.lookup
  simp only [Option.map_eq_some'] at h ⊢
  obtain ⟨e, he, hx⟩ := h
  refine ⟨e, ?_, hx⟩
  have h1 := find?_of_find?_take _ _ _ _ he
  rw [List.find?_cons] at h1
  have hk : decide (k = k0) = false := by simpa using fun hh => hne hh.symm
  simp only [hk] at h1
  unfold LRUCache.without at h1
  generalize c.entries = l at h1
  induction l with
  | nil => simp at h1
  | cons a l ih =>
    rw [List.find?_cons]
    by_cases ha : a.1 = k
    · have hfil : List.filter (fun e : κ × ν => decide (e.1 ≠ k)) (a :: l) =
          List.filter (fun e : κ × ν => decide (e.1 ≠ k)) l := by
        simp [List.filter_cons, ha]
      rw [hfil] at h1
      have hak : decide (a.1 = k0) = false := by
        simpa [ha] using fun hh => hne hh.symm
      rw [hak]
      exact ih h1
    · have hfil : List.filter (fun e : κ × ν => decide (e.1 ≠ k)) (a :: l) =
          a :: List.filter (fun e : κ × ν => decide (e.1 ≠ k)) l := by
        simp [List.filter_cons, ha]
      rw [hfil, List.find?_cons] at h1
      cases hp : decide (a.1 = k0)
      · rw [hp] at h1
        exact ih h1
      · rw [hp] at h1
        exact h1

/-- C11. For every remote network type other than `tcp`, `tcp4` and `tcp6`,
`parseRemoteAddr` returns the zero-value `ConnInfo`.  In the accept loop of `Listen` no
connection is handled under that value: the listener is a TCP listener, so for every
accepted connection, with remote address `addr` resolving to `tcpAddr`,
`parseRemoteAddr` takes its TCP branch, and the pass adds the connection to the cache
under `(serverConnInfo, ConnInfo{TCP, tcpAddr})` and starts `handleConnection` with that
client, which is the sender of every buffer handed to `deliver`.  Unless `TCP` is `0`
and `tcpAddr` is the zero address, that client is not the zero-value `ConnInfo`, and the
pass brings no entry under `(serverConnInfo, ConnInfo{})` into the cache.  A failed
`Accept` leaves the state as it is and starts nothing. -/
theorem parseRemoteAddr_unsupported_zero_never_accepted (env : Env)
    (ResolveTCPAddr : String → String → Except String String)
    (netAddrType s addr tcpAddr : String) (st : State)
    (h1 : netAddrType ≠ "tcp") (h2 : netAddrType ≠ "tcp4") (h3 : netAddrType ≠ "tcp6")
    (hres : ResolveTCPAddr acceptedNetwork addr = .ok tcpAddr) :
    let conn : Conn := ⟨st.nextConn⟩
    let client : ConnInfo := { Type_ := env.TCP, TCPAddr := tcpAddr }
    let key : AddressPair := { local_ := env.serverConnInfo, remote := client }
    let zeroKey : AddressPair := { local_ := env.serverConnInfo, remote := zeroConnInfo }
    let accepted : State :=
      { st with nextConn := st.nextConn + 1,
                connCache := st.connCache.Add key (.netConn conn) }
    parseRemoteAddr env ResolveTCPAddr netAddrType s = some zeroConnInfo ∧
    ListenStep env ResolveTCPAddr (.ok addr) st = some (accepted, some (conn, client)) ∧
    (env.TCP ≠ 0 ∨ tcpAddr ≠ "" →
      client ≠ zeroConnInfo ∧
      ∀ v, accepted.connCache.lookup zeroKey = some v →
        st.connCache.lookup zeroKey = some v) ∧
    (∀ (data : Bytes) (frames : List Bytes) (st1 : State),
      handleConnection env conn client (data :: frames) st1 =
        handleConnection env conn client frames (deliver env data client st1)) ∧
    (∀ e, ListenStep env ResolveTCPAddr (.error e) st = some (st, none)) := by
  intro conn client key zeroKey accepted
  have hzero : parseRemoteAddr env ResolveTCPAddr netAddrType s = some zeroConnInfo := by
    unfold parseRemoteAddr
    rw [if_neg]
    rintro (h | h | h)
    · exact h1 h
    · exact h2 h
    · exact h3 h
  have htcp : parseRemoteAddr env ResolveTCPAddr acceptedNetwork addr = some client := by
    unfold parseRemoteAddr
    have hn : acceptedNetwork = "tcp" ∨ acceptedNetwork = "tcp4" ∨ acceptedNetwork = "tcp6" :=
      Or.inl rfl
    rw [if_pos hn, hres]
  refine ⟨hzero, ?_, ?_, ?_, ?_⟩
  · unfold ListenStep
    simp only [htcp]
  · intro hnz
    have hne : client ≠ zeroConnInfo := by
      intro h
      have ht : env.TCP = 0 := congrArg ConnInfo.Type_ h
      have ha : tcpAddr = "" := congrArg ConnInfo.TCPAddr h
      rcases hnz with h | h
      · exact h ht
      · exact h ha
    refine ⟨hne, ?_⟩
    intro v hv
    have hkey : zeroKey ≠ key := by
      intro h
      exact hne (congrArg AddressPair.remote h).symm
    exact LRUCache.lookup_Add_of_ne st.connCache key zeroKey _ v hkey hv
  · intro data frames st1
    exact handleConnection_cons env conn client data frames st1
  · intro e
    rfl

/-- C11 at a sample input: the network type `unix` gives the zero-value `ConnInfo`, and
a connection accepted from `198.51.100.7:40000` in the sample state is cached and
handled under the TCP `ConnInfo` of that address, with no entry under the zero value. -/
theorem parseRemoteAddr_unsupported_zero_never_accepted_witness :
    parseRemoteAddr (sampleEnv sampleZeroMsg none) sampleResolveTCPAddr "unix"
        "/run/rains.sock" = some zeroConnInfo ∧
    ListenStep (sampleEnv sampleZeroMsg none) sampleResolveTCPAddr
        (.ok "198.51.100.7:40000") (sampleState []) =
      some ({ sampleState [] with
              nextConn := 1,
              connCache :=
                { capacity := 10,
                  entries := [({ local_ := sampleServer, remote := samplePeer },
                    .netConn ⟨0⟩)] } },
            some (⟨0⟩, samplePeer)) ∧
    samplePeer ≠ zeroConnInfo := by
  have h := parseRemoteAddr_unsupported_zero_never_accepted (sampleEnv sampleZeroMsg none)
    sampleResolveTCPAddr "unix" "/run/rains.sock" "198.51.100.7:40000"
    "198.51.100.7:40000" (sampleState []) (by decide) (by decide) (by decide) rfl
  exact ⟨h.1, h.2.1.trans (by decide), (h.2.2.1 (Or.inl (by decide))).1⟩

end Rains
